import Mathlib

/-!
Verification of the http-caching decision engine (`Middleware::handle_request`).

The repository holds two design iterations of the same subsystem:
* the newer one under `src/core/src/core/` (generic `Headers`/`CacheTime`,
  two-phase fetch, required key/keep functions, injected `time_now_fn`), and
* the older one under `src/src/core/` (concrete `chrono` timestamps, optional
  key/keep functions, single-phase fetch, ambient `chrono::offset::Utc::now()`).

Both are embedded below as pure Lean functions.  Every interaction with the
collaborators (cache store, remote fetcher, policy functions on the hit and
miss paths) is recorded in an explicit event trace, so that claims about which
operations run, how often, and in which order become statements about the
trace.  The `error.rs` module of both iterations is not present in the sources;
only the opaque `Error` values it would define are needed here, so errors are
modelled as an opaque code type that the engine propagates verbatim.
-/

namespace HttpCaching

/-- Headers are a multimap from names to lists of values
(`HashMap<String, Vec<String>>` in `http.rs`), embedded as an association
list. -/
def Headers : Type := List (String × List String)

instance : DecidableEq Headers := by
  unfold Headers
  infer_instance

/-- Models `HttpMethod` from `http.rs`: the eight standard verbs plus a custom
method carrying its name. -/
inductive HttpMethod where
  | Options
  | Get
  | Post
  | Put
  | Delete
  | Head
  | Trace
  | Connect
  | Patch
  | Custom (name : String)
deriving DecidableEq

/-- Models `HttpVersion` from `http.rs`. -/
inductive HttpVersion where
  | Http09
  | Http10
  | Http11
  | H2
  | H3
deriving DecidableEq

/-- Models the `HTTPRequest` struct from `http.rs` (URLs as plain strings,
bodies as byte lists). -/
structure HTTPRequest where
  method : HttpMethod
  url : String
  headers : Headers
  body : List Nat
deriving DecidableEq

/-- Models the `HTTPResponse` struct from `http.rs`. -/
structure HTTPResponse where
  version : HttpVersion
  url : String
  status : Nat
  reason : String
  headers : Headers
  body : List Nat
deriving DecidableEq

/-- Models the opaque error values defined in the (absent) `error.rs`: the
engine never inspects them, only propagates them verbatim. -/
structure Error where
  code : Nat
deriving DecidableEq

/-- Models `CacheData` from `core/cache.rs`: the record stored in the cache. -/
structure CacheData (CT : Type) where
  call_timestamp : CT
  expiration_time : Option CT
  http_request : HTTPRequest
  http_response : HTTPResponse
deriving DecidableEq

/-- Models `CacheRequestKey` from `middleware_config.rs`. -/
inductive CacheRequestKey where
  | NoKey
  | Key (key : String)
deriving DecidableEq

/-- Models `CacheKeepPolicy` from `middleware_config.rs` (newer iteration):
the hit-path decision. -/
inductive CacheKeepPolicy where
  | Skip
  | Keep
  | Update
  | Evict
deriving DecidableEq

/-- Models `CacheResponseExpiration` from `middleware_config.rs` (newer
iteration): the miss/update-path decision. -/
inductive CacheResponseExpiration (CT : Type) where
  | NoCache
  | CacheWithoutExpirationDate
  | CacheWithExpirationDate (expiration_date : CT)
deriving DecidableEq

/-- Models `CacheHitResult` from `middleware.rs`: the caller-visible outcome. -/
inductive CacheHitResult where
  | CacheOff
  | CacheMiss
  | CacheHit
  | CacheUpdate
  | CacheEvict
deriving DecidableEq

/-- Models `MiddlewareConfig` from `middleware_config.rs` (newer iteration):
the bundle of policy functions.  `key_fn`, `cache_keep_fn` and `time_now_fn`
are required; `cache_policy_fn` is optional and its absence defaults to
`NoCache` inside `handle_request`. -/
structure MiddlewareConfig (A CT : Type) where
  additional_parameters : A
  key_fn : HTTPRequest → A → CacheRequestKey
  cache_keep_fn : HTTPRequest → HTTPResponse → CT → Option CT → A → CacheKeepPolicy
  cache_policy_fn : Option (HTTPRequest → HTTPResponse → A → CacheResponseExpiration CT)
  time_now_fn : Unit → CT

/-- Models the `CacheManager` trait from `core/cache.rs` as an oracle: each of
the three operations may fail with a store error. -/
structure CacheManager (CT : Type) where
  get : String → Except Error (Option (CacheData CT))
  put : String → CacheData CT → Except Error Unit
  delete : String → Except Error (Option (CacheData CT))

/-- Models the handle returned by `RequestCaller::read_remote_headers` in the
newer iteration: header data is available immediately, while `body` is the
lazily invoked, fallible body read of the `HttpResponse` trait. -/
structure RemoteResponse where
  version : HttpVersion
  url : String
  status : Nat
  reason : String
  headers : Headers
  body : Except Error (List Nat)

/-- Models the `RequestCaller` trait from `middleware.rs` (newer iteration). -/
structure RequestCaller where
  read_remote_headers : HTTPRequest → Except Error RemoteResponse

/-- One observable interaction of `handle_request` with its collaborators.
`getE`/`putE`/`deleteE` are the store operations, `readHeadersE`/`bodyE` the
two fetch phases, `keepE` an invocation of the keep-decision function with the
cached record fields it receives, and `expirationE` an invocation of the
expiration-decision function with the response it receives. -/
inductive Event (CT : Type) where
  | getE (key : String)
  | keepE (response : HTTPResponse) (call_timestamp : CT) (expiration_time : Option CT)
  | deleteE (key : String)
  | readHeadersE
  | expirationE (response : HTTPResponse)
  | bodyE
  | putE (key : String) (data : CacheData CT)
deriving DecidableEq

/-- Mirrors lines 78-86 of the newer `middleware.rs`: the keep decision is
`cache_data_opt.as_ref().map(|cache_data| cache_keep_fn(...))`, so it is
`some` exactly when a cached record exists. -/
def cache_keep_compute {A CT : Type} (cfg : MiddlewareConfig A CT)
    (request : HTTPRequest) (additional_params : A)
    (cache_data_opt : Option (CacheData CT)) : Option CacheKeepPolicy :=
  cache_data_opt.map fun cache_data =>
    cfg.cache_keep_fn request cache_data.http_response cache_data.call_timestamp
      cache_data.expiration_time additional_params

/-- Mirrors lines 122-127 of the newer `middleware.rs`: when no
`cache_policy_fn` is supplied the expiration decision defaults to `NoCache`,
otherwise the function is applied to the headers-only response. -/
def cache_policy_compute {A CT : Type} (cfg : MiddlewareConfig A CT)
    (request : HTTPRequest) (remote_response_no_body : HTTPResponse)
    (additional_params : A) : CacheResponseExpiration CT :=
  match cfg.cache_policy_fn with
  | none => CacheResponseExpiration.NoCache
  | some cache_policy_fn =>
      cache_policy_fn request remote_response_no_body additional_params

/-- Mirrors the construction on lines 113-120 of the newer `middleware.rs`
(and `HTTPResponse::new_no_body` in `http.rs`): the headers-only copy of the
remote response, with an empty body, handed to the expiration function. -/
def new_no_body (value : RemoteResponse) : HTTPResponse :=
  { version := value.version
    status := value.status
    reason := value.reason
    url := value.url
    headers := value.headers
    body := [] }

/-- Mirrors lines 150-166 of the newer `middleware.rs`: build the new cache
record from the policy clock, the chosen expiration time, the incoming
request and the fully read response; `put` it; and classify the outcome as
`CacheUpdate` exactly when the remembered hit-path decision was `Update`. -/
def put_and_finish {A CT : Type} (cfg : MiddlewareConfig A CT)
    (request : HTTPRequest) (cache_manager : CacheManager CT)
    (cache_key : String) (cache_keep : Option CacheKeepPolicy)
    (remote_response_with_body : HTTPResponse) (expiration_time : Option CT)
    (trace3 : List (Event CT)) :
    Except Error (Option HTTPResponse × CacheHitResult) × List (Event CT) :=
  let new_cache_data : CacheData CT :=
    { call_timestamp := cfg.time_now_fn ()
      expiration_time := expiration_time
      http_request := request
      http_response := remote_response_with_body }
  ((match cache_manager.put cache_key new_cache_data with
    | Except.error e => Except.error e
    | Except.ok _ =>
        let cache_hit_result :=
          match cache_keep with
          | some CacheKeepPolicy.Update => CacheHitResult.CacheUpdate
          | _ => CacheHitResult.CacheMiss
        Except.ok (some remote_response_with_body, cache_hit_result)),
   trace3 ++ [Event.putE cache_key new_cache_data])

/-- Mirrors lines 109-167 of the newer `middleware.rs`: the fetch path taken
on a cache miss (`cache_keep = none`) or an `Update` decision.  It reads the
remote headers, builds the headers-only response handed to the expiration
function, always reads the body, and stores a record unless the expiration
decision is `NoCache`.  `cache_keep` is the decision remembered from the hit
path; `trace` is the event trace accumulated so far. -/
def fetch_path {A CT : Type} (cfg : MiddlewareConfig A CT)
    (additional_params : A) (request : HTTPRequest)
    (cache_manager : CacheManager CT) (remote_caller : RequestCaller)
    (cache_key : String) (cache_keep : Option CacheKeepPolicy)
    (trace : List (Event CT)) :
    Except Error (Option HTTPResponse × CacheHitResult) × List (Event CT) :=
  match remote_caller.read_remote_headers request with
  | Except.error e => (Except.error e, trace ++ [Event.readHeadersE])
  | Except.ok remote_response =>
    let remote_response_no_body : HTTPResponse := new_no_body remote_response
    let cache_policy :=
      cache_policy_compute cfg request remote_response_no_body additional_params
    let trace2 :=
      match cfg.cache_policy_fn with
      | none => trace ++ [Event.readHeadersE]
      | some _ =>
          trace ++ [Event.readHeadersE, Event.expirationE remote_response_no_body]
    match remote_response.body with
    | Except.error e => (Except.error e, trace2 ++ [Event.bodyE])
    | Except.ok body =>
      let remote_response_with_body : HTTPResponse :=
        { remote_response_no_body with body := body }
      let trace3 := trace2 ++ [Event.bodyE]
      match cache_policy with
      | CacheResponseExpiration.NoCache =>
          (Except.ok (some remote_response_with_body, CacheHitResult.CacheOff), trace3)
      | CacheResponseExpiration.CacheWithoutExpirationDate =>
          put_and_finish cfg request cache_manager cache_key cache_keep
            remote_response_with_body none trace3
      | CacheResponseExpiration.CacheWithExpirationDate expiration_date =>
          put_and_finish cfg request cache_manager cache_key cache_keep
            remote_response_with_body (some expiration_date) trace3

/-- Mirrors `Middleware::handle_request` of the newer iteration
(`src/core/src/core/middleware.rs`, lines 56-168).  The `unwrap()` on the
`Keep` arm is rendered by matching on the cached record first, which is
equivalent because `cache_keep_compute` yields `some` exactly on a present
record.  The result pairs the Rust return value with the event trace. -/
def handle_request {A CT : Type} (cfg : MiddlewareConfig A CT)
    (additional_params : A) (request : HTTPRequest)
    (cache_manager : CacheManager CT) (remote_caller : RequestCaller) :
    Except Error (Option HTTPResponse × CacheHitResult) × List (Event CT) :=
  match cfg.key_fn request additional_params with
  | CacheRequestKey.NoKey => (Except.ok (none, CacheHitResult.CacheOff), [])
  | CacheRequestKey.Key cache_key =>
    match cache_manager.get cache_key with
    | Except.error e => (Except.error e, [Event.getE cache_key])
    | Except.ok cache_data_opt =>
      match cache_data_opt with
      | none =>
          fetch_path cfg additional_params request cache_manager remote_caller
            cache_key none [Event.getE cache_key]
      | some cache_data =>
        let trace1 : List (Event CT) :=
          [Event.getE cache_key,
           Event.keepE cache_data.http_response cache_data.call_timestamp
             cache_data.expiration_time]
        match cfg.cache_keep_fn request cache_data.http_response
            cache_data.call_timestamp cache_data.expiration_time additional_params with
        | CacheKeepPolicy.Skip =>
            (Except.ok (none, CacheHitResult.CacheOff), trace1)
        | CacheKeepPolicy.Keep =>
            (Except.ok (some cache_data.http_response, CacheHitResult.CacheHit), trace1)
        | CacheKeepPolicy.Evict =>
            ((match cache_manager.delete cache_key with
              | Except.error e => Except.error e
              | Except.ok _ => Except.ok (none, CacheHitResult.CacheEvict)),
             trace1 ++ [Event.deleteE cache_key])
        | CacheKeepPolicy.Update =>
            fetch_path cfg additional_params request cache_manager remote_caller
              cache_key (some CacheKeepPolicy.Update) trace1

/-- Transcribes, word for word, the outcome truth table of spec §8 over
(record present?, keep decision, expiration decision) — the reference against
which the engine's outcome is compared: (no record, NoCache)→CacheOff;
(no record, cacheable)→CacheMiss; (record, Update, cacheable)→CacheUpdate;
(record, Update, NoCache)→CacheOff; (record, Keep)→CacheHit;
(record, Evict)→CacheEvict; (record, Skip)→CacheOff.  The keep decision is
`none` when no record is present. -/
def specOutcomeTable {CT : Type} (cache_keep : Option CacheKeepPolicy)
    (exp : CacheResponseExpiration CT) : CacheHitResult :=
  match cache_keep, exp with
  | none, CacheResponseExpiration.NoCache => CacheHitResult.CacheOff
  | none, _ => CacheHitResult.CacheMiss
  | some CacheKeepPolicy.Update, CacheResponseExpiration.NoCache => CacheHitResult.CacheOff
  | some CacheKeepPolicy.Update, _ => CacheHitResult.CacheUpdate
  | some CacheKeepPolicy.Keep, _ => CacheHitResult.CacheHit
  | some CacheKeepPolicy.Evict, _ => CacheHitResult.CacheEvict
  | some CacheKeepPolicy.Skip, _ => CacheHitResult.CacheOff

/-- Number of body reads (`bodyE` events) in a trace. -/
def count_body_reads {CT : Type} (trace : List (Event CT)) : Nat :=
  trace.countP fun e =>
    match e with
    | Event.bodyE => true
    | _ => false

/-- Number of keep-function invocations (`keepE` events) in a trace. -/
def count_keep_calls {CT : Type} (trace : List (Event CT)) : Nat :=
  trace.countP fun e =>
    match e with
    | Event.keepE _ _ _ => true
    | _ => false

/-- Number of store deletions of a given key (`deleteE` events) in a trace. -/
def count_deletes {CT : Type} (key : String) (trace : List (Event CT)) : Nat :=
  trace.countP fun e =>
    match e with
    | Event.deleteE k => k == key
    | _ => false

/-- The expiration timestamp stored in a record for a given expiration
decision, after the early `NoCache` return: `none` for indefinite caching,
the given date otherwise (lines 140-148 of the newer `middleware.rs`). -/
def stored_expiration {CT : Type} (exp : CacheResponseExpiration CT) : Option CT :=
  match exp with
  | CacheResponseExpiration.CacheWithExpirationDate t => some t
  | _ => none

namespace V1

/-- Models `CacheKey` from the older `cache_config.rs` (`src/src/core/`). -/
inductive CacheKey where
  | NoKey
  | Key (key : String)
deriving DecidableEq

/-- Models `CacheKeep` from the older `cache_config.rs`: the hit-path decision
of the older iteration, which has no `Skip` variant. -/
inductive CacheKeep where
  | Keep
  | Update
  | Evict
deriving DecidableEq

/-- Models `CacheResponsePolicy` from the older `cache_config.rs`.  In the
source its timestamp is the concrete `CacheTimestamp`
(`chrono::DateTime<chrono::Utc>`), embedded here as the parameter `CT`. -/
inductive CacheResponsePolicy (CT : Type) where
  | NoCache
  | CacheWithoutExpirationDate
  | CacheWithExpirationDate (expiration_date : CT)
deriving DecidableEq

/-- Models `CacheConfig` from the older `cache_config.rs`: all three policy
functions are optional, and there is no time-source function at all. -/
structure CacheConfig (A CT : Type) where
  key_fn : Option (HTTPRequest → A → CacheKey)
  cache_keep_fn : Option (HTTPRequest → HTTPResponse → Option CT → A → CacheKeep)
  cache_policy_fn : Option (HTTPRequest → HTTPResponse → A → CacheResponsePolicy CT)

/-- Mirrors `process_cache_hit` from the older `middleware.rs` (lines
116-135): `none` when no record exists; otherwise the keep function is
applied, defaulting to `Keep` when no keep function is supplied.  The older
keep function does not receive the record's `call_timestamp`. -/
def process_cache_hit {A CT : Type} (request : HTTPRequest)
    (cache_data_opt : Option (CacheData CT)) (additional_params : A)
    (cache_keep_fn : Option (HTTPRequest → HTTPResponse → Option CT → A → CacheKeep)) :
    Option CacheKeep :=
  match cache_data_opt with
  | none => none
  | some cache_data =>
    some (match cache_keep_fn with
          | none => CacheKeep.Keep
          | some f =>
              f request cache_data.http_response cache_data.expiration_time
                additional_params)

/-- Mirrors the fetch path of the older `handle_request` (lines 84-112).  The
older `read_remote_headers` returns a complete `HTTPResponse` (body included),
the expiration function therefore sees that full response, and the
`cache_manager.put(&cache_key, &new_cache_data)` call on line 105 is an
un-awaited future: it is constructed and dropped without being polled, so no
store write ever happens and no `putE` event is recorded.  `now` is the
ambient `chrono::offset::Utc::now()` reading on line 100. -/
def fetch_path_v1 {A CT : Type} (cfg : CacheConfig A CT)
    (additional_params : A) (request : HTTPRequest)
    (remote_caller : HTTPRequest → Except Error HTTPResponse) (now : CT)
    (cache_keep : Option CacheKeep) (trace : List (Event CT)) :
    Except Error (Option HTTPResponse × CacheHitResult) × List (Event CT) :=
  match remote_caller request with
  | Except.error e => (Except.error e, trace ++ [Event.readHeadersE])
  | Except.ok remote_response =>
    let cache_policy :=
      match cfg.cache_policy_fn with
      | none => CacheResponsePolicy.NoCache
      | some cache_policy_fn =>
          cache_policy_fn request remote_response additional_params
    let trace2 :=
      match cfg.cache_policy_fn with
      | none => trace ++ [Event.readHeadersE]
      | some _ => trace ++ [Event.readHeadersE, Event.expirationE remote_response]
    match cache_policy with
    | CacheResponsePolicy.NoCache =>
        (Except.ok (some remote_response, CacheHitResult.CacheOff), trace2)
    | CacheResponsePolicy.CacheWithoutExpirationDate =>
        let _new_cache_data : CacheData CT :=
          { call_timestamp := now
            expiration_time := none
            http_request := request
            http_response := remote_response }
        let cache_hit_result :=
          match cache_keep with
          | some CacheKeep.Update => CacheHitResult.CacheUpdate
          | _ => CacheHitResult.CacheMiss
        (Except.ok (some remote_response, cache_hit_result), trace2)
    | CacheResponsePolicy.CacheWithExpirationDate expiration_date =>
        let _new_cache_data : CacheData CT :=
          { call_timestamp := now
            expiration_time := some expiration_date
            http_request := request
            http_response := remote_response }
        let cache_hit_result :=
          match cache_keep with
          | some CacheKeep.Update => CacheHitResult.CacheUpdate
          | _ => CacheHitResult.CacheMiss
        (Except.ok (some remote_response, cache_hit_result), trace2)

/-- Mirrors `Middleware::handle_request` of the older iteration
(`src/src/core/middleware.rs`, lines 42-113).  A missing `key_fn` or a
`NoKey` result short-circuits with `CacheOff`.  The `cache_manager.delete`
call on line 77 is an un-awaited future — constructed and dropped without
being polled — so on the `Evict` arm no store deletion happens, no `deleteE`
event is recorded, and the arm cannot fail. -/
def handle_request_v1 {A CT : Type} (cfg : CacheConfig A CT)
    (additional_params : A) (request : HTTPRequest)
    (cache_manager : CacheManager CT)
    (remote_caller : HTTPRequest → Except Error HTTPResponse) (now : CT) :
    Except Error (Option HTTPResponse × CacheHitResult) × List (Event CT) :=
  match cfg.key_fn with
  | none => (Except.ok (none, CacheHitResult.CacheOff), [])
  | some key_fn =>
    match key_fn request additional_params with
    | CacheKey.NoKey => (Except.ok (none, CacheHitResult.CacheOff), [])
    | CacheKey.Key cache_key =>
      match cache_manager.get cache_key with
      | Except.error e => (Except.error e, [Event.getE cache_key])
      | Except.ok cache_data_opt =>
        match cache_data_opt with
        | none =>
            fetch_path_v1 cfg additional_params request remote_caller now none
              [Event.getE cache_key]
        | some cache_data =>
          let trace1 : List (Event CT) :=
            [Event.getE cache_key,
             Event.keepE cache_data.http_response cache_data.call_timestamp
               cache_data.expiration_time]
          match process_cache_hit request (some cache_data) additional_params
              cfg.cache_keep_fn with
          | some CacheKeep.Keep =>
              (Except.ok (some cache_data.http_response, CacheHitResult.CacheHit),
               trace1)
          | some CacheKeep.Evict =>
              (Except.ok (none, CacheHitResult.CacheEvict), trace1)
          | _ =>
              fetch_path_v1 cfg additional_params request remote_caller now
                (process_cache_hit request (some cache_data) additional_params
                  cfg.cache_keep_fn)
                trace1

end V1

/-! Concrete fixtures used by witnesses and counterexamples, instantiating
the generic parameters at `A := Unit` and `CT := Nat`. -/

/-- A concrete request. -/
def sampleRequest : HTTPRequest :=
  { method := HttpMethod.Get, url := "http://e/a", headers := [], body := [] }

/-- A concrete response as stored in the cache. -/
def sampleStoredResponse : HTTPResponse :=
  { version := HttpVersion.Http11, url := "http://e/a", status := 200,
    reason := "OK", headers := [], body := [1, 2] }

/-- A concrete cached record. -/
def sampleRecord : CacheData Nat :=
  { call_timestamp := 5, expiration_time := some 10,
    http_request := sampleRequest, http_response := sampleStoredResponse }

/-- A concrete remote-response handle whose body read yields `[7, 8, 9]`. -/
def sampleRemoteResponse : RemoteResponse :=
  { version := HttpVersion.Http11, url := "http://e/a", status := 200,
    reason := "OK", headers := [], body := Except.ok [7, 8, 9] }

/-- A fetcher answering every request with `sampleRemoteResponse`. -/
def sampleCaller : RequestCaller :=
  { read_remote_headers := fun _ => Except.ok sampleRemoteResponse }

/-- The full response produced by reading `sampleRemoteResponse` to the end. -/
def sampleFullResponse : HTTPResponse :=
  { version := HttpVersion.Http11, url := "http://e/a", status := 200,
    reason := "OK", headers := [], body := [7, 8, 9] }

/-- A store oracle holding nothing; all operations succeed. -/
def emptyStore : CacheManager Nat :=
  { get := fun _ => Except.ok none
    put := fun _ _ => Except.ok ()
    delete := fun _ => Except.ok none }

/-- A store oracle answering every lookup with `sampleRecord`; all operations
succeed. -/
def storeWithSample : CacheManager Nat :=
  { get := fun _ => Except.ok (some sampleRecord)
    put := fun _ _ => Except.ok ()
    delete := fun _ => Except.ok (some sampleRecord) }

/-- A configuration with constant policy functions, for concrete runs. -/
def testConfig (key : CacheRequestKey) (keep : CacheKeepPolicy)
    (policy : Option (CacheResponseExpiration Nat)) : MiddlewareConfig Unit Nat :=
  { additional_parameters := ()
    key_fn := fun _ _ => key
    cache_keep_fn := fun _ _ _ _ _ => keep
    cache_policy_fn := policy.map (fun e => fun _ _ _ => e)
    time_now_fn := fun _ => 42 }

/-- Maps the older iteration's cache key into the newer iteration's (they are
the same two-constructor shape). -/
def inj_key : V1.CacheKey → CacheRequestKey
  | V1.CacheKey.NoKey => CacheRequestKey.NoKey
  | V1.CacheKey.Key k => CacheRequestKey.Key k

/-- Maps the older iteration's keep decision into the newer iteration's; the
older set has no `Skip`, so the image never contains it. -/
def inj_keep : V1.CacheKeep → CacheKeepPolicy
  | V1.CacheKeep.Keep => CacheKeepPolicy.Keep
  | V1.CacheKeep.Update => CacheKeepPolicy.Update
  | V1.CacheKeep.Evict => CacheKeepPolicy.Evict

/-- Maps the older iteration's expiration decision into the newer
iteration's (same three-constructor shape). -/
def inj_policy {CT : Type} : V1.CacheResponsePolicy CT → CacheResponseExpiration CT
  | V1.CacheResponsePolicy.NoCache => CacheResponseExpiration.NoCache
  | V1.CacheResponsePolicy.CacheWithoutExpirationDate =>
      CacheResponseExpiration.CacheWithoutExpirationDate
  | V1.CacheResponsePolicy.CacheWithExpirationDate d =>
      CacheResponseExpiration.CacheWithExpirationDate d

/-- Presents an older-iteration fetcher (returning a complete `HTTPResponse`)
as a newer-iteration `RequestCaller`: header fields are exposed immediately
and the lazy body read returns that response's body. -/
def lift_remote (remote : HTTPRequest → Except Error HTTPResponse) : RequestCaller :=
  { read_remote_headers := fun rq =>
      (remote rq).map fun r =>
        { version := r.version, url := r.url, status := r.status,
          reason := r.reason, headers := r.headers, body := Except.ok r.body } }

/-- The newer-iteration configuration corresponding to an older `CacheConfig`
whose key and keep functions are present, completed with a time function `tf`
(the older iteration has none; its keep function ignores the record's
`call_timestamp`, which the older signature does not pass). -/
def config_of_v1 {A CT : Type} (keyF : HTTPRequest → A → V1.CacheKey)
    (keepF : HTTPRequest → HTTPResponse → Option CT → A → V1.CacheKeep)
    (polF : Option (HTTPRequest → HTTPResponse → A → V1.CacheResponsePolicy CT))
    (params : A) (tf : Unit → CT) : MiddlewareConfig A CT :=
  { additional_parameters := params
    key_fn := fun rq p => inj_key (keyF rq p)
    cache_keep_fn := fun rq rsp _ et p => inj_keep (keepF rq rsp et p)
    cache_policy_fn :=
      polF.map fun pf => fun rq rsp p => inj_policy (pf rq rsp p)
    time_now_fn := tf }

/-- Interprets the store mutations of a trace over association-list store
contents: a `putE` overwrites the key's binding, a `deleteE` removes it, and
every other event leaves the contents untouched. -/
def apply_trace {CT : Type} (contents : List (String × CacheData CT)) :
    List (Event CT) → List (String × CacheData CT)
  | [] => contents
  | Event.putE k d :: rest =>
      apply_trace (contents.filter (fun p => p.1 != k) ++ [(k, d)]) rest
  | Event.deleteE k :: rest =>
      apply_trace (contents.filter (fun p => p.1 != k)) rest
  | _ :: rest => apply_trace contents rest

/-- A store oracle backed by association-list contents: lookups answer from
the list, writes and deletions succeed (the trace records them, and
`apply_trace` gives the resulting contents). -/
def store_of (contents : List (String × CacheData Nat)) : CacheManager Nat :=
  { get := fun key => Except.ok ((contents.find? fun p => p.1 == key).map Prod.snd)
    put := fun _ _ => Except.ok ()
    delete := fun key =>
        Except.ok ((contents.find? fun p => p.1 == key).map Prod.snd) }

/-- An older-iteration configuration with constant policy functions. -/
def testConfigV1 (key : V1.CacheKey) (keep : V1.CacheKeep)
    (policy : Option (V1.CacheResponsePolicy Nat)) : V1.CacheConfig Unit Nat :=
  { key_fn := some fun _ _ => key
    cache_keep_fn := some fun _ _ _ _ => keep
    cache_policy_fn := policy.map fun e => fun _ _ _ => e }

/-- An older-iteration fetcher answering every request with the full
`sampleFullResponse`. -/
def sampleRemoteV1 : HTTPRequest → Except Error HTTPResponse :=
  fun _ => Except.ok sampleFullResponse

/-!  Theorems.  -/

/-- Evaluation of the fetch path when the remote headers and body reads and
the store write all succeed: the full response is the headers-only response
completed with the read body; the outcome is `CacheOff` under `NoCache`,
otherwise `CacheUpdate` exactly under an `Update` marker; the trace records
the header read, the expiration call when a policy function exists, the body
read, and the store write with the exact record unless `NoCache`. -/
lemma fetch_path_ok {A CT : Type} (cfg : MiddlewareConfig A CT)
    (additional_params : A) (request : HTTPRequest)
    (cache_manager : CacheManager CT) (remote_caller : RequestCaller)
    (cache_key : String) (cache_keep : Option CacheKeepPolicy)
    (trace : List (Event CT)) (rr : RemoteResponse) (b : List Nat)
    (hrh : remote_caller.read_remote_headers request = Except.ok rr)
    (hb : rr.body = Except.ok b)
    (hput : ∀ d, cache_manager.put cache_key d = Except.ok ()) :
    fetch_path cfg additional_params request cache_manager remote_caller
        cache_key cache_keep trace =
      (Except.ok (some { new_no_body rr with body := b },
         match cache_policy_compute cfg request (new_no_body rr) additional_params with
         | CacheResponseExpiration.NoCache => CacheHitResult.CacheOff
         | _ =>
           match cache_keep with
           | some CacheKeepPolicy.Update => CacheHitResult.CacheUpdate
           | _ => CacheHitResult.CacheMiss),
       trace ++ [Event.readHeadersE] ++
         (match cfg.cache_policy_fn with
          | none => []
          | some _ => [Event.expirationE (new_no_body rr)]) ++ [Event.bodyE] ++
         (match cache_policy_compute cfg request (new_no_body rr) additional_params with
          | CacheResponseExpiration.NoCache => []
          | ed => [Event.putE cache_key
              { call_timestamp := cfg.time_now_fn ()
                expiration_time := stored_expiration ed
                http_request := request
                http_response := { new_no_body rr with body := b } }])) := by
  unfold fetch_path put_and_finish
  rw [hrh]
  simp only [hb]
  rcases hpol : cache_policy_compute cfg request (new_no_body rr) additional_params
    with _ | _ | t <;>
    rcases hpf : cfg.cache_policy_fn with _ | pf <;>
    simp [hpol, hpf, hput, stored_expiration, List.append_assoc]

/-- C2: when the key function yields `NoKey`, `handle_request` returns
`(none, CacheOff)` with an empty interaction trace — no store operation
(`get`/`put`/`delete`) and no fetch phase (`read_headers`/`body`) is ever
invoked. -/
theorem C2_nokey_short_circuits {A CT : Type} (cfg : MiddlewareConfig A CT)
    (additional_params : A) (request : HTTPRequest)
    (cache_manager : CacheManager CT) (remote_caller : RequestCaller)
    (h : cfg.key_fn request additional_params = CacheRequestKey.NoKey) :
    handle_request cfg additional_params request cache_manager remote_caller =
      (Except.ok (none, CacheHitResult.CacheOff), ([] : List (Event CT))) := by
  unfold handle_request
  rw [h]

/-- Witness for C2 at a concrete configuration whose key function returns
`NoKey`. -/
theorem C2_nokey_short_circuits_witness :
    handle_request (testConfig CacheRequestKey.NoKey CacheKeepPolicy.Keep none)
        () sampleRequest emptyStore sampleCaller =
      (Except.ok (none, CacheHitResult.CacheOff), []) :=
  C2_nokey_short_circuits _ _ _ _ _ rfl

/-- C3: on a hit whose keep decision is `Keep`, `handle_request` returns the
stored record's response unchanged with outcome `CacheHit`, and the trace
shows only the store lookup and the keep call — no fetch phase runs and the
store is not mutated (no `putE`/`deleteE`). -/
theorem C3_keep_serves_stored_response {A CT : Type} (cfg : MiddlewareConfig A CT)
    (additional_params : A) (request : HTTPRequest)
    (cache_manager : CacheManager CT) (remote_caller : RequestCaller)
    (cache_key : String) (cd : CacheData CT)
    (hkey : cfg.key_fn request additional_params = CacheRequestKey.Key cache_key)
    (hget : cache_manager.get cache_key = Except.ok (some cd))
    (hkeep : cfg.cache_keep_fn request cd.http_response cd.call_timestamp
        cd.expiration_time additional_params = CacheKeepPolicy.Keep) :
    handle_request cfg additional_params request cache_manager remote_caller =
      (Except.ok (some cd.http_response, CacheHitResult.CacheHit),
       [Event.getE cache_key,
        Event.keepE cd.http_response cd.call_timestamp cd.expiration_time]) := by
  unfold handle_request
  simp only [hkey, hget]
  simp [hkeep]

/-- Witness for C3 at a concrete populated store with a `Keep` policy. -/
theorem C3_keep_serves_stored_response_witness :
    handle_request (testConfig (CacheRequestKey.Key "a") CacheKeepPolicy.Keep none)
        () sampleRequest storeWithSample sampleCaller =
      (Except.ok (some sampleStoredResponse, CacheHitResult.CacheHit),
       [Event.getE "a", Event.keepE sampleStoredResponse 5 (some 10)]) :=
  C3_keep_serves_stored_response _ _ _ _ _ _ _ rfl rfl rfl

/-- C4: on a hit whose keep decision is `Evict`, `store.delete` is invoked
exactly once with the derived key, the result is `(none, CacheEvict)`, and no
fetch phase runs (the trace is exactly lookup, keep call, delete). -/
theorem C4_evict_deletes_once {A CT : Type} (cfg : MiddlewareConfig A CT)
    (additional_params : A) (request : HTTPRequest)
    (cache_manager : CacheManager CT) (remote_caller : RequestCaller)
    (cache_key : String) (cd : CacheData CT) (dr : Option (CacheData CT))
    (hkey : cfg.key_fn request additional_params = CacheRequestKey.Key cache_key)
    (hget : cache_manager.get cache_key = Except.ok (some cd))
    (hkeep : cfg.cache_keep_fn request cd.http_response cd.call_timestamp
        cd.expiration_time additional_params = CacheKeepPolicy.Evict)
    (hdel : cache_manager.delete cache_key = Except.ok dr) :
    handle_request cfg additional_params request cache_manager remote_caller =
      (Except.ok (none, CacheHitResult.CacheEvict),
       [Event.getE cache_key,
        Event.keepE cd.http_response cd.call_timestamp cd.expiration_time,
        Event.deleteE cache_key]) ∧
    count_deletes cache_key
        (handle_request cfg additional_params request cache_manager remote_caller).2 = 1 := by
  have hmain :
      handle_request cfg additional_params request cache_manager remote_caller =
        (Except.ok (none, CacheHitResult.CacheEvict),
         [Event.getE cache_key,
          Event.keepE cd.http_response cd.call_timestamp cd.expiration_time,
          Event.deleteE cache_key]) := by
    unfold handle_request
    simp only [hkey, hget]
    simp [hkeep, hdel]
  refine ⟨hmain, ?_⟩
  rw [hmain]
  simp [count_deletes, List.countP_cons]

/-- Witness for C4 at a concrete populated store with an `Evict` policy. -/
theorem C4_evict_deletes_once_witness :
    handle_request (testConfig (CacheRequestKey.Key "a") CacheKeepPolicy.Evict none)
        () sampleRequest storeWithSample sampleCaller =
      (Except.ok (none, CacheHitResult.CacheEvict),
       [Event.getE "a", Event.keepE sampleStoredResponse 5 (some 10),
        Event.deleteE "a"]) ∧
    count_deletes "a"
        (handle_request (testConfig (CacheRequestKey.Key "a") CacheKeepPolicy.Evict none)
          () sampleRequest storeWithSample sampleCaller).2 = 1 :=
  C4_evict_deletes_once (testConfig (CacheRequestKey.Key "a") CacheKeepPolicy.Evict none)
    () sampleRequest storeWithSample sampleCaller "a" sampleRecord (some sampleRecord)
    rfl rfl rfl rfl

/-- C1: whenever the collaborators succeed, the outcome tag returned by
`handle_request` is exactly the one given by the spec truth table over
(record present?, keep decision, expiration decision), where the keep
decision is the one computed on the hit path and the expiration decision the
one computed from the headers-only response. -/
theorem C1_outcome_truth_table {A CT : Type} (cfg : MiddlewareConfig A CT)
    (additional_params : A) (request : HTTPRequest)
    (cache_manager : CacheManager CT) (remote_caller : RequestCaller)
    (cache_key : String) (recOpt : Option (CacheData CT))
    (dr : Option (CacheData CT)) (rr : RemoteResponse) (b : List Nat)
    (hkey : cfg.key_fn request additional_params = CacheRequestKey.Key cache_key)
    (hget : cache_manager.get cache_key = Except.ok recOpt)
    (hdel : cache_manager.delete cache_key = Except.ok dr)
    (hput : ∀ d, cache_manager.put cache_key d = Except.ok ())
    (hrh : remote_caller.read_remote_headers request = Except.ok rr)
    (hb : rr.body = Except.ok b) :
    ∃ resp,
      (handle_request cfg additional_params request cache_manager remote_caller).1 =
        Except.ok (resp,
          specOutcomeTable (cache_keep_compute cfg request additional_params recOpt)
            (cache_policy_compute cfg request (new_no_body rr) additional_params)) := by
  unfold handle_request
  simp only [hkey, hget]
  rcases recOpt with _ | cd
  · rw [fetch_path_ok cfg additional_params request cache_manager remote_caller
      cache_key none [Event.getE cache_key] rr b hrh hb hput]
    rcases hpol : cache_policy_compute cfg request (new_no_body rr) additional_params
      with _ | _ | t <;>
      simp [cache_keep_compute, specOutcomeTable, hpol]
  · rcases hkd : cfg.cache_keep_fn request cd.http_response cd.call_timestamp
        cd.expiration_time additional_params with _ | _ | _ | _
    · simp [hkd, cache_keep_compute, specOutcomeTable]
    · simp [hkd, cache_keep_compute, specOutcomeTable]
    · simp only [hkd]
      rw [fetch_path_ok cfg additional_params request cache_manager remote_caller
        cache_key (some CacheKeepPolicy.Update) _ rr b hrh hb hput]
      rcases hpol : cache_policy_compute cfg request (new_no_body rr) additional_params
        with _ | _ | t <;>
        simp [hkd, cache_keep_compute, specOutcomeTable, hpol]
    · simp [hkd, hdel, cache_keep_compute, specOutcomeTable]

/-- Witness for C1 at a concrete `Update` hit with a dated expiration
decision. -/
theorem C1_outcome_truth_table_witness :
    ∃ resp,
      (handle_request
          (testConfig (CacheRequestKey.Key "a") CacheKeepPolicy.Update
            (some (CacheResponseExpiration.CacheWithExpirationDate 99)))
          () sampleRequest storeWithSample sampleCaller).1 =
        Except.ok (resp,
          specOutcomeTable
            (cache_keep_compute
              (testConfig (CacheRequestKey.Key "a") CacheKeepPolicy.Update
                (some (CacheResponseExpiration.CacheWithExpirationDate 99)))
              sampleRequest () (some sampleRecord))
            (cache_policy_compute
              (testConfig (CacheRequestKey.Key "a") CacheKeepPolicy.Update
                (some (CacheResponseExpiration.CacheWithExpirationDate 99)))
              sampleRequest (new_no_body sampleRemoteResponse) ())) :=
  C1_outcome_truth_table _ _ _ _ _ "a" (some sampleRecord) (some sampleRecord) _ _
    rfl rfl rfl (fun _ => rfl) rfl rfl

/-- Evaluation of the fetch path when the reads succeed and the expiration
decision is `NoCache`: the fully fetched response is returned with
`CacheOff`, the trace ends at the body read, and no store write is needed
(so no assumption on `put` is required). -/
lemma fetch_path_nocache {A CT : Type} (cfg : MiddlewareConfig A CT)
    (additional_params : A) (request : HTTPRequest)
    (cache_manager : CacheManager CT) (remote_caller : RequestCaller)
    (cache_key : String) (cache_keep : Option CacheKeepPolicy)
    (trace : List (Event CT)) (rr : RemoteResponse) (b : List Nat)
    (hrh : remote_caller.read_remote_headers request = Except.ok rr)
    (hb : rr.body = Except.ok b)
    (hexp : cache_policy_compute cfg request (new_no_body rr) additional_params =
      CacheResponseExpiration.NoCache) :
    fetch_path cfg additional_params request cache_manager remote_caller
        cache_key cache_keep trace =
      (Except.ok (some { new_no_body rr with body := b }, CacheHitResult.CacheOff),
       trace ++ [Event.readHeadersE] ++
         (match cfg.cache_policy_fn with
          | none => []
          | some _ => [Event.expirationE (new_no_body rr)]) ++ [Event.bodyE]) := by
  unfold fetch_path
  rw [hrh]
  simp only [hb, hexp]
  rcases hpf : cfg.cache_policy_fn with _ | pf <;>
    simp [hpf, List.append_assoc]

/-- C5: on any invocation reaching the fetch path (no record, or an `Update`
decision), an expiration decision of `NoCache` — which is also the forced
default whenever no expiration function is supplied — means the store is
never written and never mutated at all (no `putE`, no `deleteE` in the
trace), and the fully fetched response is returned with outcome `CacheOff`. -/
theorem C5_nocache_never_puts {A CT : Type} (cfg : MiddlewareConfig A CT)
    (additional_params : A) (request : HTTPRequest)
    (cache_manager : CacheManager CT) (remote_caller : RequestCaller)
    (cache_key : String) (recOpt : Option (CacheData CT))
    (rr : RemoteResponse) (b : List Nat)
    (hkey : cfg.key_fn request additional_params = CacheRequestKey.Key cache_key)
    (hget : cache_manager.get cache_key = Except.ok recOpt)
    (hfall : cache_keep_compute cfg request additional_params recOpt = none ∨
      cache_keep_compute cfg request additional_params recOpt =
        some CacheKeepPolicy.Update)
    (hrh : remote_caller.read_remote_headers request = Except.ok rr)
    (hb : rr.body = Except.ok b)
    (hexp : cache_policy_compute cfg request (new_no_body rr) additional_params =
      CacheResponseExpiration.NoCache) :
    (∀ rq rsp p, cfg.cache_policy_fn = none →
      cache_policy_compute cfg rq rsp p = CacheResponseExpiration.NoCache) ∧
    (handle_request cfg additional_params request cache_manager remote_caller).1 =
      Except.ok (some { new_no_body rr with body := b }, CacheHitResult.CacheOff) ∧
    (∀ k d, Event.putE k d ∉
      (handle_request cfg additional_params request cache_manager remote_caller).2) ∧
    (∀ k, Event.deleteE k ∉
      (handle_request cfg additional_params request cache_manager remote_caller).2) := by
  refine ⟨?_, ?_⟩
  · intro rq rsp p hnone
    unfold cache_policy_compute
    rw [hnone]
  unfold handle_request
  simp only [hkey, hget]
  rcases recOpt with _ | cd
  · rw [fetch_path_nocache cfg additional_params request cache_manager remote_caller
      cache_key none [Event.getE cache_key] rr b hrh hb hexp]
    rcases hpf : cfg.cache_policy_fn with _ | pf <;> simp [hpf]
  · have hkd : cfg.cache_keep_fn request cd.http_response cd.call_timestamp
        cd.expiration_time additional_params = CacheKeepPolicy.Update := by
      rcases hfall with h | h <;> simp [cache_keep_compute] at h
      exact h
    simp only [hkd]
    rw [fetch_path_nocache cfg additional_params request cache_manager remote_caller
      cache_key (some CacheKeepPolicy.Update) _ rr b hrh hb hexp]
    rcases hpf : cfg.cache_policy_fn with _ | pf <;> simp [hpf]

/-- Witness for C5 at a concrete `Update` hit with no expiration function
supplied, so the expiration decision is the `NoCache` default. -/
theorem C5_nocache_never_puts_witness :
    (∀ rq rsp p,
      (testConfig (CacheRequestKey.Key "a") CacheKeepPolicy.Update none).cache_policy_fn = none →
      cache_policy_compute
          (testConfig (CacheRequestKey.Key "a") CacheKeepPolicy.Update none) rq rsp p =
        CacheResponseExpiration.NoCache) ∧
    (handle_request (testConfig (CacheRequestKey.Key "a") CacheKeepPolicy.Update none)
        () sampleRequest storeWithSample sampleCaller).1 =
      Except.ok (some { new_no_body sampleRemoteResponse with body := [7, 8, 9] },
        CacheHitResult.CacheOff) ∧
    (∀ k d, Event.putE k d ∉
      (handle_request (testConfig (CacheRequestKey.Key "a") CacheKeepPolicy.Update none)
        () sampleRequest storeWithSample sampleCaller).2) ∧
    (∀ k, Event.deleteE k ∉
      (handle_request (testConfig (CacheRequestKey.Key "a") CacheKeepPolicy.Update none)
        () sampleRequest storeWithSample sampleCaller).2) :=
  C5_nocache_never_puts _ _ _ _ _ "a" (some sampleRecord) _ _
    rfl rfl (Or.inr rfl) rfl rfl rfl

/-- C6: whenever a record is written to the store, the record is exactly
`{call_timestamp := time_now_fn (), expiration_time := the date of a
CacheWithExpirationDate decision and none for CacheWithoutExpirationDate,
http_request := the incoming request, http_response := the headers-only
response completed with the fully read body}` — never the headers-only
variant handed to the expiration function, and the write always uses the
derived key. -/
theorem C6_stored_record_exact {A CT : Type} (cfg : MiddlewareConfig A CT)
    (additional_params : A) (request : HTTPRequest)
    (cache_manager : CacheManager CT) (remote_caller : RequestCaller)
    (cache_key : String) (recOpt : Option (CacheData CT))
    (rr : RemoteResponse) (b : List Nat)
    (hkey : cfg.key_fn request additional_params = CacheRequestKey.Key cache_key)
    (hget : cache_manager.get cache_key = Except.ok recOpt)
    (hrh : remote_caller.read_remote_headers request = Except.ok rr)
    (hb : rr.body = Except.ok b)
    (hput : ∀ d, cache_manager.put cache_key d = Except.ok ()) :
    ∀ k d, Event.putE k d ∈
        (handle_request cfg additional_params request cache_manager remote_caller).2 →
      k = cache_key ∧
      d = { call_timestamp := cfg.time_now_fn ()
            expiration_time := stored_expiration
              (cache_policy_compute cfg request (new_no_body rr) additional_params)
            http_request := request
            http_response := { new_no_body rr with body := b } } := by
  intro k d hmem
  unfold handle_request at hmem
  simp only [hkey, hget] at hmem
  rcases recOpt with _ | cd
  · rw [fetch_path_ok cfg additional_params request cache_manager remote_caller
      cache_key none [Event.getE cache_key] rr b hrh hb hput] at hmem
    rcases hpol : cache_policy_compute cfg request (new_no_body rr) additional_params
      with _ | _ | t <;>
      rcases hpf : cfg.cache_policy_fn with _ | pf <;>
      simp [hpol, hpf, stored_expiration] at hmem ⊢ <;>
      exact hmem
  · rcases hkd : cfg.cache_keep_fn request cd.http_response cd.call_timestamp
        cd.expiration_time additional_params with _ | _ | _ | _
    · simp [hkd] at hmem
    · simp [hkd] at hmem
    · simp only [hkd] at hmem
      rw [fetch_path_ok cfg additional_params request cache_manager remote_caller
        cache_key (some CacheKeepPolicy.Update) _ rr b hrh hb hput] at hmem
      rcases hpol : cache_policy_compute cfg request (new_no_body rr) additional_params
        with _ | _ | t <;>
        rcases hpf : cfg.cache_policy_fn with _ | pf <;>
        simp [hpol, hpf, stored_expiration] at hmem ⊢ <;>
        exact hmem
    · rcases hdl : cache_manager.delete cache_key with e | dr2 <;>
        simp [hkd, hdl] at hmem

/-- Witness for C6: in a concrete miss with a dated expiration decision, the
written record carries the policy clock value 42, the expiration date 99,
the incoming request, and the fully read body. -/
theorem C6_stored_record_exact_witness :
    "a" = "a" ∧
    ({ call_timestamp := 42, expiration_time := some 99,
       http_request := sampleRequest,
       http_response := sampleFullResponse } : CacheData Nat) =
      { call_timestamp :=
          (testConfig (CacheRequestKey.Key "a") CacheKeepPolicy.Keep
            (some (CacheResponseExpiration.CacheWithExpirationDate 99))).time_now_fn ()
        expiration_time := stored_expiration
          (cache_policy_compute
            (testConfig (CacheRequestKey.Key "a") CacheKeepPolicy.Keep
              (some (CacheResponseExpiration.CacheWithExpirationDate 99)))
            sampleRequest (new_no_body sampleRemoteResponse) ())
        http_request := sampleRequest
        http_response := { new_no_body sampleRemoteResponse with body := [7, 8, 9] } } :=
  C6_stored_record_exact
    (testConfig (CacheRequestKey.Key "a") CacheKeepPolicy.Keep
      (some (CacheResponseExpiration.CacheWithExpirationDate 99)))
    () sampleRequest emptyStore sampleCaller "a" none sampleRemoteResponse [7, 8, 9]
    rfl rfl rfl rfl (fun _ => rfl) "a"
    { call_timestamp := 42, expiration_time := some 99,
      http_request := sampleRequest, http_response := sampleFullResponse }
    (by decide)

/-- Shape of the fetch-path trace on every run, error paths included: either
the header read fails and the trace ends there, or the trace is the prefix,
the header read, the expiration call exactly when a policy function is
supplied (on the headers-only response), the body read, and at most one
store write with the derived key. -/
lemma fetch_path_trace {A CT : Type} (cfg : MiddlewareConfig A CT)
    (additional_params : A) (request : HTTPRequest)
    (cache_manager : CacheManager CT) (remote_caller : RequestCaller)
    (cache_key : String) (cache_keep : Option CacheKeepPolicy)
    (trace : List (Event CT)) :
    (fetch_path cfg additional_params request cache_manager remote_caller
        cache_key cache_keep trace).2 = trace ++ [Event.readHeadersE] ∨
    ∃ rr mid tail,
      remote_caller.read_remote_headers request = Except.ok rr ∧
      ((cfg.cache_policy_fn = none ∧ mid = []) ∨
       (∃ pf, cfg.cache_policy_fn = some pf ∧
         mid = [Event.expirationE (new_no_body rr)])) ∧
      (tail = [] ∨ (∃ d, tail = [Event.putE cache_key d])) ∧
      (fetch_path cfg additional_params request cache_manager remote_caller
          cache_key cache_keep trace).2 =
        trace ++ [Event.readHeadersE] ++ mid ++ [Event.bodyE] ++ tail := by
  rcases hrh : remote_caller.read_remote_headers request with e | rr
  · left
    simp [fetch_path, hrh]
  · right
    rcases hb : rr.body with e | b
    · rcases hpf : cfg.cache_policy_fn with _ | pf
      · exact ⟨rr, [], [], rfl, Or.inl ⟨rfl, rfl⟩, Or.inl rfl,
          by simp [fetch_path, hrh, hb, hpf]⟩
      · exact ⟨rr, [Event.expirationE (new_no_body rr)], [], rfl,
          Or.inr ⟨pf, rfl, rfl⟩, Or.inl rfl,
          by simp [fetch_path, hrh, hb, hpf, List.append_assoc]⟩
    · rcases hpol : cache_policy_compute cfg request (new_no_body rr)
          additional_params with _ | _ | t
      · rcases hpf : cfg.cache_policy_fn with _ | pf
        · exact ⟨rr, [], [], rfl, Or.inl ⟨rfl, rfl⟩, Or.inl rfl,
            by simp [fetch_path, hrh, hb, hpf, hpol]⟩
        · exact ⟨rr, [Event.expirationE (new_no_body rr)], [], rfl,
            Or.inr ⟨pf, rfl, rfl⟩, Or.inl rfl,
            by simp [fetch_path, hrh, hb, hpf, hpol, List.append_assoc]⟩
      · rcases hpf : cfg.cache_policy_fn with _ | pf
        · exact ⟨rr, [],
            [Event.putE cache_key
              { call_timestamp := cfg.time_now_fn ()
                expiration_time := none
                http_request := request
                http_response := { new_no_body rr with body := b } }], rfl,
            Or.inl ⟨rfl, rfl⟩, Or.inr ⟨_, rfl⟩,
            by simp [fetch_path, put_and_finish, hrh, hb, hpf, hpol,
              List.append_assoc]⟩
        · exact ⟨rr, [Event.expirationE (new_no_body rr)],
            [Event.putE cache_key
              { call_timestamp := cfg.time_now_fn ()
                expiration_time := none
                http_request := request
                http_response := { new_no_body rr with body := b } }], rfl,
            Or.inr ⟨pf, rfl, rfl⟩, Or.inr ⟨_, rfl⟩,
            by simp [fetch_path, put_and_finish, hrh, hb, hpf, hpol,
              List.append_assoc]⟩
      · rcases hpf : cfg.cache_policy_fn with _ | pf
        · exact ⟨rr, [],
            [Event.putE cache_key
              { call_timestamp := cfg.time_now_fn ()
                expiration_time := some t
                http_request := request
                http_response := { new_no_body rr with body := b } }], rfl,
            Or.inl ⟨rfl, rfl⟩, Or.inr ⟨_, rfl⟩,
            by simp [fetch_path, put_and_finish, hrh, hb, hpf, hpol,
              List.append_assoc]⟩
        · exact ⟨rr, [Event.expirationE (new_no_body rr)],
            [Event.putE cache_key
              { call_timestamp := cfg.time_now_fn ()
                expiration_time := some t
                http_request := request
                http_response := { new_no_body rr with body := b } }], rfl,
            Or.inr ⟨pf, rfl, rfl⟩, Or.inr ⟨_, rfl⟩,
            by simp [fetch_path, put_and_finish, hrh, hb, hpf, hpol,
              List.append_assoc]⟩

/-- The fetch path adds at most one body read to a trace that has none. -/
lemma fetch_path_body_count {A CT : Type} (cfg : MiddlewareConfig A CT)
    (additional_params : A) (request : HTTPRequest)
    (cache_manager : CacheManager CT) (remote_caller : RequestCaller)
    (cache_key : String) (cache_keep : Option CacheKeepPolicy)
    (trace : List (Event CT)) (hc : count_body_reads trace = 0) :
    count_body_reads (fetch_path cfg additional_params request cache_manager
      remote_caller cache_key cache_keep trace).2 ≤ 1 := by
  simp only [count_body_reads] at hc
  rcases fetch_path_trace cfg additional_params request cache_manager
      remote_caller cache_key cache_keep trace with hsh |
      ⟨rr, mid, tail, hrr, hmid, htail, hsh⟩ <;> rw [count_body_reads, hsh]
  · simp [List.countP_append, hc]
  · rcases hmid with ⟨h1, h2⟩ | ⟨pf, h1, h2⟩ <;>
      rcases htail with h3 | ⟨d, h3⟩ <;> subst h2 <;> subst h3 <;>
      simp [List.countP_append, hc]

/-- If a body read appears in a fetch-path trace whose prefix has neither a
header read nor a body read, the trace decomposes as prefix, header read, the
expiration call exactly when a policy function exists (on a response with an
empty body), the body read, and a remainder. -/
lemma fetch_path_body_mem {A CT : Type} (cfg : MiddlewareConfig A CT)
    (additional_params : A) (request : HTTPRequest)
    (cache_manager : CacheManager CT) (remote_caller : RequestCaller)
    (cache_key : String) (cache_keep : Option CacheKeepPolicy)
    (trace : List (Event CT))
    (hpre_rh : Event.readHeadersE ∉ trace) (hpre_b : Event.bodyE ∉ trace) :
    Event.bodyE ∈ (fetch_path cfg additional_params request cache_manager
        remote_caller cache_key cache_keep trace).2 →
    ∃ pre mid post,
      (fetch_path cfg additional_params request cache_manager remote_caller
          cache_key cache_keep trace).2 =
        pre ++ [Event.readHeadersE] ++ mid ++ [Event.bodyE] ++ post ∧
      Event.readHeadersE ∉ pre ∧ Event.bodyE ∉ pre ∧
      ((cfg.cache_policy_fn = none ∧ mid = []) ∨
       (∃ pf nb, cfg.cache_policy_fn = some pf ∧
         mid = [Event.expirationE nb] ∧ nb.body = [])) := by
  intro hmem
  rcases fetch_path_trace cfg additional_params request cache_manager
      remote_caller cache_key cache_keep trace with hsh |
      ⟨rr, mid, tail, hrr, hmid, htail, hsh⟩
  · exfalso
    rw [hsh] at hmem
    simp only [List.mem_append, List.mem_singleton] at hmem
    rcases hmem with hmem | hmem
    · exact hpre_b hmem
    · cases hmem
  · refine ⟨trace, mid, tail, hsh, hpre_rh, hpre_b, ?_⟩
    rcases hmid with ⟨h1, h2⟩ | ⟨pf, h1, h2⟩
    · exact Or.inl ⟨h1, h2⟩
    · exact Or.inr ⟨pf, new_no_body rr, h1, h2, rfl⟩

/-- C7: in every invocation (error paths included) the body is read at most
once; it is never read when the keep decision is `Skip`, `Keep` or `Evict`;
and whenever it is read, the trace decomposes as a prefix without fetch
events, the header read, the expiration call exactly when an expiration
function is supplied (on a headers-only, empty-body response), the body read,
and a remainder — so `read_headers` always precedes `body`. -/
theorem C7_body_read_discipline {A CT : Type} (cfg : MiddlewareConfig A CT)
    (additional_params : A) (request : HTTPRequest)
    (cache_manager : CacheManager CT) (remote_caller : RequestCaller) :
    count_body_reads
        (handle_request cfg additional_params request cache_manager remote_caller).2 ≤ 1 ∧
    (∀ cache_key recOpt,
      cfg.key_fn request additional_params = CacheRequestKey.Key cache_key →
      cache_manager.get cache_key = Except.ok recOpt →
      (cache_keep_compute cfg request additional_params recOpt =
          some CacheKeepPolicy.Skip ∨
       cache_keep_compute cfg request additional_params recOpt =
          some CacheKeepPolicy.Keep ∨
       cache_keep_compute cfg request additional_params recOpt =
          some CacheKeepPolicy.Evict) →
      Event.bodyE ∉
        (handle_request cfg additional_params request cache_manager remote_caller).2) ∧
    (Event.bodyE ∈
        (handle_request cfg additional_params request cache_manager remote_caller).2 →
      ∃ pre mid post,
        (handle_request cfg additional_params request cache_manager remote_caller).2 =
          pre ++ [Event.readHeadersE] ++ mid ++ [Event.bodyE] ++ post ∧
        Event.readHeadersE ∉ pre ∧ Event.bodyE ∉ pre ∧
        ((cfg.cache_policy_fn = none ∧ mid = []) ∨
         (∃ pf nb, cfg.cache_policy_fn = some pf ∧
           mid = [Event.expirationE nb] ∧ nb.body = []))) := by
  refine ⟨?_, ?_, ?_⟩
  · rcases hk : cfg.key_fn request additional_params with _ | cache_key
    · simp [handle_request, hk, count_body_reads]
    · rcases hg : cache_manager.get cache_key with e | recOpt
      · simp [handle_request, hk, hg, count_body_reads]
      · rcases recOpt with _ | cd
        · have ht :
              handle_request cfg additional_params request cache_manager remote_caller =
                fetch_path cfg additional_params request cache_manager remote_caller
                  cache_key none [Event.getE cache_key] := by
            simp [handle_request, hk, hg]
          rw [ht]
          exact fetch_path_body_count _ _ _ _ _ _ _ _ (by simp [count_body_reads])
        · rcases hkd : cfg.cache_keep_fn request cd.http_response cd.call_timestamp
              cd.expiration_time additional_params with _ | _ | _ | _
          · simp [handle_request, hk, hg, hkd, count_body_reads]
          · simp [handle_request, hk, hg, hkd, count_body_reads]
          · have ht :
                handle_request cfg additional_params request cache_manager remote_caller =
                  fetch_path cfg additional_params request cache_manager remote_caller
                    cache_key (some CacheKeepPolicy.Update)
                    [Event.getE cache_key,
                     Event.keepE cd.http_response cd.call_timestamp cd.expiration_time] := by
              simp [handle_request, hk, hg, hkd]
            rw [ht]
            exact fetch_path_body_count _ _ _ _ _ _ _ _ (by simp [count_body_reads])
          · simp [handle_request, hk, hg, hkd, count_body_reads]
  · intro cache_key recOpt h1 h2 h3
    rcases recOpt with _ | cd
    · simp [cache_keep_compute] at h3
    · rcases h3 with h3 | h3 | h3 <;>
        simp only [cache_keep_compute, Option.map, Option.some.injEq] at h3 <;>
        simp [handle_request, h1, h2, h3]
  · intro hmem
    rcases hk : cfg.key_fn request additional_params with _ | cache_key
    · simp [handle_request, hk] at hmem
    · rcases hg : cache_manager.get cache_key with e | recOpt
      · simp [handle_request, hk, hg] at hmem
      · rcases recOpt with _ | cd
        · have ht :
              handle_request cfg additional_params request cache_manager remote_caller =
                fetch_path cfg additional_params request cache_manager remote_caller
                  cache_key none [Event.getE cache_key] := by
            simp [handle_request, hk, hg]
          rw [ht] at hmem ⊢
          exact fetch_path_body_mem _ _ _ _ _ _ _ _ (by simp) (by simp) hmem
        · rcases hkd : cfg.cache_keep_fn request cd.http_response cd.call_timestamp
              cd.expiration_time additional_params with _ | _ | _ | _
          · simp [handle_request, hk, hg, hkd] at hmem
          · simp [handle_request, hk, hg, hkd] at hmem
          · have ht :
                handle_request cfg additional_params request cache_manager remote_caller =
                  fetch_path cfg additional_params request cache_manager remote_caller
                    cache_key (some CacheKeepPolicy.Update)
                    [Event.getE cache_key,
                     Event.keepE cd.http_response cd.call_timestamp cd.expiration_time] := by
              simp [handle_request, hk, hg, hkd]
            rw [ht] at hmem ⊢
            exact fetch_path_body_mem _ _ _ _ _ _ _ _ (by simp) (by simp) hmem
          · simp [handle_request, hk, hg, hkd] at hmem

/-- Witness for C7: on a concrete `Keep` hit the body is never read, and on a
concrete miss with an expiration function the trace decomposes around the
single body read. -/
theorem C7_body_read_discipline_witness :
    (Event.bodyE ∉
      (handle_request (testConfig (CacheRequestKey.Key "a") CacheKeepPolicy.Keep none)
        () sampleRequest storeWithSample sampleCaller).2) ∧
    (∃ pre mid post,
      (handle_request
          (testConfig (CacheRequestKey.Key "a") CacheKeepPolicy.Keep
            (some (CacheResponseExpiration.CacheWithExpirationDate 99)))
          () sampleRequest emptyStore sampleCaller).2 =
        pre ++ [Event.readHeadersE] ++ mid ++ [Event.bodyE] ++ post ∧
      Event.readHeadersE ∉ pre ∧ Event.bodyE ∉ pre ∧
      (((testConfig (CacheRequestKey.Key "a") CacheKeepPolicy.Keep
          (some (CacheResponseExpiration.CacheWithExpirationDate 99))).cache_policy_fn =
            none ∧ mid = []) ∨
       (∃ pf nb,
         (testConfig (CacheRequestKey.Key "a") CacheKeepPolicy.Keep
           (some (CacheResponseExpiration.CacheWithExpirationDate 99))).cache_policy_fn =
             some pf ∧
         mid = [Event.expirationE nb] ∧ nb.body = []))) :=
  ⟨(C7_body_read_discipline (testConfig (CacheRequestKey.Key "a") CacheKeepPolicy.Keep none)
      () sampleRequest storeWithSample sampleCaller).2.1 "a" (some sampleRecord)
      rfl rfl (Or.inr (Or.inl rfl)),
   (C7_body_read_discipline
      (testConfig (CacheRequestKey.Key "a") CacheKeepPolicy.Keep
        (some (CacheResponseExpiration.CacheWithExpirationDate 99)))
      () sampleRequest emptyStore sampleCaller).2.2 (by decide)⟩

/-- The fetch path never invokes the keep function: it adds no `keepE` event
to the trace. -/
lemma fetch_path_keep_count {A CT : Type} (cfg : MiddlewareConfig A CT)
    (additional_params : A) (request : HTTPRequest)
    (cache_manager : CacheManager CT) (remote_caller : RequestCaller)
    (cache_key : String) (cache_keep : Option CacheKeepPolicy)
    (trace : List (Event CT)) :
    count_keep_calls (fetch_path cfg additional_params request cache_manager
        remote_caller cache_key cache_keep trace).2 = count_keep_calls trace := by
  rcases fetch_path_trace cfg additional_params request cache_manager
      remote_caller cache_key cache_keep trace with hsh |
      ⟨rr, mid, tail, hrr, hmid, htail, hsh⟩ <;>
    simp only [count_keep_calls] <;> rw [hsh]
  · simp [List.countP_append]
  · rcases hmid with ⟨h1, h2⟩ | ⟨pf, h1, h2⟩ <;>
      rcases htail with h3 | ⟨d, h3⟩ <;> subst h2 <;> subst h3 <;>
      simp [List.countP_append]

/-- C9: the keep function is invoked exactly once when `store.get` returned a
record and zero times when it returned none; moreover the computed keep
decision is `some` only when a record is present, so the `unwrap()` on the
`Keep` arm always has a record to unwrap. -/
theorem C9_keep_called_iff_record {A CT : Type} (cfg : MiddlewareConfig A CT)
    (additional_params : A) (request : HTTPRequest)
    (cache_manager : CacheManager CT) (remote_caller : RequestCaller)
    (cache_key : String) :
    (∀ cd, cfg.key_fn request additional_params = CacheRequestKey.Key cache_key →
      cache_manager.get cache_key = Except.ok (some cd) →
      count_keep_calls
        (handle_request cfg additional_params request cache_manager remote_caller).2 = 1) ∧
    (cfg.key_fn request additional_params = CacheRequestKey.Key cache_key →
      cache_manager.get cache_key = Except.ok none →
      count_keep_calls
        (handle_request cfg additional_params request cache_manager remote_caller).2 = 0) ∧
    (∀ recOpt d,
      cache_keep_compute cfg request additional_params recOpt = some d →
      ∃ cd, recOpt = some cd) := by
  refine ⟨?_, ?_, ?_⟩
  · intro cd h1 h2
    rcases hkd : cfg.cache_keep_fn request cd.http_response cd.call_timestamp
        cd.expiration_time additional_params with _ | _ | _ | _
    · simp [handle_request, h1, h2, hkd, count_keep_calls]
    · simp [handle_request, h1, h2, hkd, count_keep_calls]
    · have ht :
          handle_request cfg additional_params request cache_manager remote_caller =
            fetch_path cfg additional_params request cache_manager remote_caller
              cache_key (some CacheKeepPolicy.Update)
              [Event.getE cache_key,
               Event.keepE cd.http_response cd.call_timestamp cd.expiration_time] := by
        simp [handle_request, h1, h2, hkd]
      rw [ht, fetch_path_keep_count]
      simp [count_keep_calls]
    · simp [handle_request, h1, h2, hkd, count_keep_calls]
  · intro h1 h2
    have ht :
        handle_request cfg additional_params request cache_manager remote_caller =
          fetch_path cfg additional_params request cache_manager remote_caller
            cache_key none [Event.getE cache_key] := by
      simp [handle_request, h1, h2]
    rw [ht, fetch_path_keep_count]
    simp [count_keep_calls]
  · intro recOpt d h
    rcases recOpt with _ | cd
    · simp [cache_keep_compute] at h
    · exact ⟨cd, rfl⟩

/-- Witness for C9: one keep call on a concrete hit, none on a concrete miss,
and a `some` keep decision exhibits its record. -/
theorem C9_keep_called_iff_record_witness :
    count_keep_calls
      (handle_request (testConfig (CacheRequestKey.Key "a") CacheKeepPolicy.Keep none)
        () sampleRequest storeWithSample sampleCaller).2 = 1 ∧
    count_keep_calls
      (handle_request (testConfig (CacheRequestKey.Key "a") CacheKeepPolicy.Keep none)
        () sampleRequest emptyStore sampleCaller).2 = 0 ∧
    (∃ cd, (some sampleRecord : Option (CacheData Nat)) = some cd) :=
  ⟨(C9_keep_called_iff_record (testConfig (CacheRequestKey.Key "a") CacheKeepPolicy.Keep none)
      () sampleRequest storeWithSample sampleCaller "a").1 sampleRecord rfl rfl,
   (C9_keep_called_iff_record (testConfig (CacheRequestKey.Key "a") CacheKeepPolicy.Keep none)
      () sampleRequest emptyStore sampleCaller "a").2.1 rfl rfl,
   (C9_keep_called_iff_record (testConfig (CacheRequestKey.Key "a") CacheKeepPolicy.Keep none)
      () sampleRequest emptyStore sampleCaller "a").2.2 (some sampleRecord)
      CacheKeepPolicy.Keep rfl⟩

/-- Counterexample for C8: with a keep function that answers `Keep` on every
input but an empty store, `handle_request` returns a plain successful
`CacheMiss` — it does not return any error, let alone an
`InconsistentCacheState` one (no such error exists anywhere in the engine). -/
theorem C8_counterexample_silent_miss :
    (handle_request
        (testConfig (CacheRequestKey.Key "a") CacheKeepPolicy.Keep
          (some CacheResponseExpiration.CacheWithoutExpirationDate))
        () sampleRequest emptyStore sampleCaller).1 =
      Except.ok (some sampleFullResponse, CacheHitResult.CacheMiss) := rfl

/-- C8 amended: a `Keep` decision can never be produced while no record
exists — the keep function is invoked only on a present record (`none` record
gives `none` decision, zero `keepE` events) — and when the keep function
would answer `Keep` on every input but the store has no record, the engine
silently follows the miss path and returns a successful miss-path result,
never an error. -/
theorem C8_keep_without_record {A CT : Type} (cfg : MiddlewareConfig A CT)
    (additional_params : A) (request : HTTPRequest)
    (cache_manager : CacheManager CT) (remote_caller : RequestCaller)
    (cache_key : String) (rr : RemoteResponse) (b : List Nat)
    (hkf : ∀ rq rsp ct et p,
      cfg.cache_keep_fn rq rsp ct et p = CacheKeepPolicy.Keep)
    (hkey : cfg.key_fn request additional_params = CacheRequestKey.Key cache_key)
    (hget : cache_manager.get cache_key = Except.ok none)
    (hrh : remote_caller.read_remote_headers request = Except.ok rr)
    (hb : rr.body = Except.ok b)
    (hput : ∀ d, cache_manager.put cache_key d = Except.ok ()) :
    cache_keep_compute cfg request additional_params none = none ∧
    count_keep_calls
      (handle_request cfg additional_params request cache_manager remote_caller).2 = 0 ∧
    (handle_request cfg additional_params request cache_manager remote_caller).1 =
      Except.ok (some { new_no_body rr with body := b },
        match cache_policy_compute cfg request (new_no_body rr) additional_params with
        | CacheResponseExpiration.NoCache => CacheHitResult.CacheOff
        | _ => CacheHitResult.CacheMiss) := by
  have ht :
      handle_request cfg additional_params request cache_manager remote_caller =
        fetch_path cfg additional_params request cache_manager remote_caller
          cache_key none [Event.getE cache_key] := by
    simp [handle_request, hkey, hget]
  refine ⟨rfl, ?_, ?_⟩
  · rw [ht, fetch_path_keep_count]
    simp [count_keep_calls]
  · rw [ht, fetch_path_ok cfg additional_params request cache_manager remote_caller
      cache_key none [Event.getE cache_key] rr b hrh hb hput]

/-- Witness for C8's amended statement at the counterexample's inputs. -/
theorem C8_keep_without_record_witness :
    cache_keep_compute
      (testConfig (CacheRequestKey.Key "a") CacheKeepPolicy.Keep
        (some CacheResponseExpiration.CacheWithoutExpirationDate))
      sampleRequest () none = none ∧
    count_keep_calls
      (handle_request
        (testConfig (CacheRequestKey.Key "a") CacheKeepPolicy.Keep
          (some CacheResponseExpiration.CacheWithoutExpirationDate))
        () sampleRequest emptyStore sampleCaller).2 = 0 ∧
    (handle_request
        (testConfig (CacheRequestKey.Key "a") CacheKeepPolicy.Keep
          (some CacheResponseExpiration.CacheWithoutExpirationDate))
        () sampleRequest emptyStore sampleCaller).1 =
      Except.ok (some { new_no_body sampleRemoteResponse with body := [7, 8, 9] },
        match cache_policy_compute
            (testConfig (CacheRequestKey.Key "a") CacheKeepPolicy.Keep
              (some CacheResponseExpiration.CacheWithoutExpirationDate))
            sampleRequest (new_no_body sampleRemoteResponse) () with
        | CacheResponseExpiration.NoCache => CacheHitResult.CacheOff
        | _ => CacheHitResult.CacheMiss) :=
  C8_keep_without_record
    (testConfig (CacheRequestKey.Key "a") CacheKeepPolicy.Keep
      (some CacheResponseExpiration.CacheWithoutExpirationDate))
    () sampleRequest emptyStore sampleCaller "a" sampleRemoteResponse [7, 8, 9]
    (fun _ _ _ _ _ => rfl) rfl rfl rfl rfl (fun _ => rfl)

/-- The older fetch path records only the header read, plus the expiration
call on the full response when both the read succeeds and a policy function
exists; in particular it never records a store write or deletion (its `put`
is an un-awaited, never-polled future). -/
lemma fetch_path_v1_trace {A CT : Type} (cfg : V1.CacheConfig A CT)
    (additional_params : A) (request : HTTPRequest)
    (remote_caller : HTTPRequest → Except Error HTTPResponse) (now : CT)
    (cache_keep : Option V1.CacheKeep) (trace : List (Event CT)) :
    (V1.fetch_path_v1 cfg additional_params request remote_caller now
        cache_keep trace).2 = trace ++ [Event.readHeadersE] ∨
    ∃ r, remote_caller request = Except.ok r ∧
      (V1.fetch_path_v1 cfg additional_params request remote_caller now
          cache_keep trace).2 =
        trace ++ [Event.readHeadersE, Event.expirationE r] := by
  rcases hr : remote_caller request with er | r
  · left
    simp [V1.fetch_path_v1, hr]
  · rcases hpf : cfg.cache_policy_fn with _ | pf
    · left
      simp [V1.fetch_path_v1, hr, hpf]
    · right
      refine ⟨r, rfl, ?_⟩
      rcases hpol : pf request r additional_params with _ | _ | t <;>
        simp [V1.fetch_path_v1, hr, hpf, hpol]

/-- Every event of an older-iteration run is a store lookup, a keep call, a
header read, or an expiration call: the older `handle_request` records no
store write and no store deletion because its `put` and `delete` futures are
dropped without being polled. -/
lemma handle_request_v1_events {A CT : Type} (cfg : V1.CacheConfig A CT)
    (additional_params : A) (request : HTTPRequest)
    (cache_manager : CacheManager CT)
    (remote_caller : HTTPRequest → Except Error HTTPResponse) (now : CT) :
    ∀ e, e ∈ (V1.handle_request_v1 cfg additional_params request cache_manager
        remote_caller now).2 →
      (∃ k, e = Event.getE k) ∨ (∃ r c t, e = Event.keepE r c t) ∨
      e = Event.readHeadersE ∨ (∃ r, e = Event.expirationE r) := by
  intro e he
  rcases hk0 : cfg.key_fn with _ | keyF
  · simp [V1.handle_request_v1, hk0] at he
  · rcases hk : keyF request additional_params with _ | k
    · simp [V1.handle_request_v1, hk0, hk] at he
    · rcases hg : cache_manager.get k with er | recOpt
      · simp [V1.handle_request_v1, hk0, hk, hg] at he
        exact Or.inl ⟨k, he⟩
      · rcases recOpt with _ | cd
        · have ht :
              V1.handle_request_v1 cfg additional_params request cache_manager
                  remote_caller now =
                V1.fetch_path_v1 cfg additional_params request remote_caller now
                  none [Event.getE k] := by
            simp [V1.handle_request_v1, hk0, hk, hg]
          rw [ht] at he
          rcases fetch_path_v1_trace cfg additional_params request remote_caller
              now none [Event.getE k] with hsh | ⟨r, hr, hsh⟩ <;>
            rw [hsh] at he <;> simp at he <;> rcases he with he | he
          · exact Or.inl ⟨k, he⟩
          · exact Or.inr (Or.inr (Or.inl he))
          · exact Or.inl ⟨k, he⟩
          · rcases he with he | he
            · exact Or.inr (Or.inr (Or.inl he))
            · exact Or.inr (Or.inr (Or.inr ⟨r, he⟩))
        · rcases hkp : V1.process_cache_hit request (some cd) additional_params
              cfg.cache_keep_fn with _ | kd
          · simp [V1.process_cache_hit] at hkp
          · rcases kd with _ | _ | _
            · simp [V1.handle_request_v1, hk0, hk, hg, hkp] at he
              rcases he with he | he
              · exact Or.inl ⟨k, he⟩
              · exact Or.inr (Or.inl ⟨_, _, _, he⟩)
            · have ht :
                  V1.handle_request_v1 cfg additional_params request cache_manager
                      remote_caller now =
                    V1.fetch_path_v1 cfg additional_params request remote_caller now
                      (V1.process_cache_hit request (some cd) additional_params
                        cfg.cache_keep_fn)
                      [Event.getE k,
                       Event.keepE cd.http_response cd.call_timestamp
                         cd.expiration_time] := by
                simp [V1.handle_request_v1, hk0, hk, hg, hkp]
              rw [ht] at he
              rcases fetch_path_v1_trace cfg additional_params request remote_caller
                  now (V1.process_cache_hit request (some cd) additional_params
                    cfg.cache_keep_fn)
                  [Event.getE k,
                   Event.keepE cd.http_response cd.call_timestamp cd.expiration_time]
                  with hsh | ⟨r, hr, hsh⟩ <;>
                rw [hsh] at he <;> simp at he <;>
                rcases he with he | he | he
              · exact Or.inl ⟨k, he⟩
              · exact Or.inr (Or.inl ⟨_, _, _, he⟩)
              · exact Or.inr (Or.inr (Or.inl he))
              · exact Or.inl ⟨k, he⟩
              · exact Or.inr (Or.inl ⟨_, _, _, he⟩)
              · rcases he with he | he
                · exact Or.inr (Or.inr (Or.inl he))
                · exact Or.inr (Or.inr (Or.inr ⟨r, he⟩))
            · simp [V1.handle_request_v1, hk0, hk, hg, hkp] at he
              rcases he with he | he
              · exact Or.inl ⟨k, he⟩
              · exact Or.inr (Or.inl ⟨_, _, _, he⟩)

/-- On a successful header read, the newer fetch path (through the lifted
fetcher) and the older fetch path return the same value, provided the store
write succeeds and the expiration function is insensitive to the response
body (the older path hands it the full response, the newer one the
headers-only copy); the markers correspond through `inj_keep`. -/
lemma fetch_path_agree {A CT : Type} (keyF : HTTPRequest → A → V1.CacheKey)
    (keepF : HTTPRequest → HTTPResponse → Option CT → A → V1.CacheKeep)
    (polF : Option (HTTPRequest → HTTPResponse → A → V1.CacheResponsePolicy CT))
    (additional_params : A) (tf : Unit → CT) (request : HTTPRequest)
    (cache_manager : CacheManager CT)
    (remote : HTTPRequest → Except Error HTTPResponse) (now : CT)
    (cache_key : String) (marker : Option V1.CacheKeep) (tr2 tr1 : List (Event CT))
    (hput : ∀ d, cache_manager.put cache_key d = Except.ok ())
    (hpol : ∀ pf, polF = some pf →
      ∀ rq rsp p b2, pf rq { rsp with body := b2 } p = pf rq rsp p) :
    (fetch_path (config_of_v1 keyF keepF polF additional_params tf)
        additional_params request cache_manager (lift_remote remote) cache_key
        (Option.map inj_keep marker) tr2).1 =
    (V1.fetch_path_v1
        { key_fn := some keyF, cache_keep_fn := some keepF, cache_policy_fn := polF }
        additional_params request remote now marker tr1).1 := by
  rcases hr : remote request with er | r
  · simp [fetch_path, V1.fetch_path_v1, lift_remote, hr, Except.map]
  · have hrr : (lift_remote remote).read_remote_headers request =
        Except.ok (RemoteResponse.mk r.version r.url r.status r.reason r.headers
          (Except.ok r.body)) := by
      simp [lift_remote, hr, Except.map]
    rcases hpf : polF with _ | pf
    · simp [fetch_path, V1.fetch_path_v1, hrr, hr, config_of_v1,
        cache_policy_compute, new_no_body]
    · have hbl := hpol pf hpf request r additional_params []
      rcases hx : pf request r additional_params with _ | _ | t <;>
        rcases marker with _ | (_ | _ | _) <;>
        simp [fetch_path, V1.fetch_path_v1, put_and_finish, hrr, hr, config_of_v1,
          cache_policy_compute, new_no_body, inj_policy, inj_keep, hput, hx, hbl]

/-- Counterexample for C10: on an `Evict` hit — a configuration expressible
in both iterations — the two implementations return the same
`(none, CacheEvict)` pair, but they do not leave the store with the same
contents: the newer iteration deletes the record, while the older one's
`delete` is an un-awaited future that never runs, so its store keeps the
record. -/
theorem C10_counterexample_store_divergence :
    (handle_request
        (config_of_v1 (fun _ _ => V1.CacheKey.Key "a")
          (fun _ _ _ _ => V1.CacheKeep.Evict) none () (fun _ => 42))
        () sampleRequest (store_of [("a", sampleRecord)])
        (lift_remote sampleRemoteV1)).1 =
      (V1.handle_request_v1
          (testConfigV1 (V1.CacheKey.Key "a") V1.CacheKeep.Evict none)
          () sampleRequest (store_of [("a", sampleRecord)]) sampleRemoteV1 42).1 ∧
    apply_trace [("a", sampleRecord)]
        (handle_request
          (config_of_v1 (fun _ _ => V1.CacheKey.Key "a")
            (fun _ _ _ _ => V1.CacheKeep.Evict) none () (fun _ => 42))
          () sampleRequest (store_of [("a", sampleRecord)])
          (lift_remote sampleRemoteV1)).2 ≠
      apply_trace [("a", sampleRecord)]
        (V1.handle_request_v1
          (testConfigV1 (V1.CacheKey.Key "a") V1.CacheKeep.Evict none)
          () sampleRequest (store_of [("a", sampleRecord)]) sampleRemoteV1 42).2 := by
  constructor
  · rfl
  · decide

/-- C10 amended: for configurations expressible in both iterations (key and
keep functions present, the keep function drawn from the older, Skip-free
decision set and ignoring `call_timestamp`, the expiration function
insensitive to the response body) and an infallible store, the two
implementations return the same `(optional response, outcome)` value — but
the older iteration records no store write and no store deletion at all (its
`put` and `delete` futures are dropped unpolled), so the stores agree only
when the newer iteration performs no mutation; and the older iteration has no
policy time function, its record timestamps coming from the ambient clock
`now`. -/
theorem C10_iterations_agree_on_result {A CT : Type}
    (additional_params : A) (request : HTTPRequest)
    (cache_manager : CacheManager CT)
    (keyF : HTTPRequest → A → V1.CacheKey)
    (keepF : HTTPRequest → HTTPResponse → Option CT → A → V1.CacheKeep)
    (polF : Option (HTTPRequest → HTTPResponse → A → V1.CacheResponsePolicy CT))
    (remote : HTTPRequest → Except Error HTTPResponse) (now : CT) (tf : Unit → CT)
    (hput : ∀ k d, cache_manager.put k d = Except.ok ())
    (hdel : ∀ k, ∃ rres, cache_manager.delete k = Except.ok rres)
    (hpol : ∀ pf, polF = some pf →
      ∀ rq rsp p b2, pf rq { rsp with body := b2 } p = pf rq rsp p) :
    (handle_request (config_of_v1 keyF keepF polF additional_params tf)
        additional_params request cache_manager (lift_remote remote)).1 =
      (V1.handle_request_v1
          { key_fn := some keyF, cache_keep_fn := some keepF, cache_policy_fn := polF }
          additional_params request cache_manager remote now).1 ∧
    (∀ k d, Event.putE k d ∉
      (V1.handle_request_v1
          { key_fn := some keyF, cache_keep_fn := some keepF, cache_policy_fn := polF }
          additional_params request cache_manager remote now).2) ∧
    (∀ k, Event.deleteE k ∉
      (V1.handle_request_v1
          { key_fn := some keyF, cache_keep_fn := some keepF, cache_policy_fn := polF }
          additional_params request cache_manager remote now).2) := by
  refine ⟨?_, ?_, ?_⟩
  · rcases hk : keyF request additional_params with _ | k
    · simp [handle_request, V1.handle_request_v1, config_of_v1, inj_key, hk]
    · rcases hg : cache_manager.get k with er | recOpt
      · simp [handle_request, V1.handle_request_v1, config_of_v1, inj_key, hk, hg]
      · rcases recOpt with _ | cd
        · have h2 :
              handle_request (config_of_v1 keyF keepF polF additional_params tf)
                  additional_params request cache_manager (lift_remote remote) =
                fetch_path (config_of_v1 keyF keepF polF additional_params tf)
                  additional_params request cache_manager (lift_remote remote) k
                  (Option.map inj_keep none) [Event.getE k] := by
            simp [handle_request, config_of_v1, inj_key, hk, hg]
          have h1 :
              V1.handle_request_v1
                  { key_fn := some keyF, cache_keep_fn := some keepF,
                    cache_policy_fn := polF }
                  additional_params request cache_manager remote now =
                V1.fetch_path_v1
                  { key_fn := some keyF, cache_keep_fn := some keepF,
                    cache_policy_fn := polF }
                  additional_params request remote now none [Event.getE k] := by
            simp [V1.handle_request_v1, hk, hg]
          rw [h2, h1]
          exact fetch_path_agree keyF keepF polF additional_params tf request
            cache_manager remote now k none [Event.getE k] [Event.getE k]
            (hput k) hpol
        · rcases hkp : keepF request cd.http_response cd.expiration_time
              additional_params with _ | _ | _
          · simp [handle_request, V1.handle_request_v1, V1.process_cache_hit,
              config_of_v1, inj_keep, inj_key, hk, hg, hkp]
          · have h2 :
                handle_request (config_of_v1 keyF keepF polF additional_params tf)
                    additional_params request cache_manager (lift_remote remote) =
                  fetch_path (config_of_v1 keyF keepF polF additional_params tf)
                    additional_params request cache_manager (lift_remote remote) k
                    (Option.map inj_keep (some V1.CacheKeep.Update))
                    [Event.getE k,
                     Event.keepE cd.http_response cd.call_timestamp
                       cd.expiration_time] := by
              simp [handle_request, config_of_v1, inj_key, inj_keep, hk, hg, hkp,
                Option.map]
            have h1 :
                V1.handle_request_v1
                    { key_fn := some keyF, cache_keep_fn := some keepF,
                      cache_policy_fn := polF }
                    additional_params request cache_manager remote now =
                  V1.fetch_path_v1
                    { key_fn := some keyF, cache_keep_fn := some keepF,
                      cache_policy_fn := polF }
                    additional_params request remote now
                    (some V1.CacheKeep.Update)
                    [Event.getE k,
                     Event.keepE cd.http_response cd.call_timestamp
                       cd.expiration_time] := by
              simp [V1.handle_request_v1, V1.process_cache_hit, hk, hg, hkp]
            rw [h2, h1]
            exact fetch_path_agree keyF keepF polF additional_params tf request
              cache_manager remote now k (some V1.CacheKeep.Update) _ _
              (hput k) hpol
          · rcases hdel k with ⟨rres, hd⟩
            simp [handle_request, V1.handle_request_v1, V1.process_cache_hit,
              config_of_v1, inj_keep, inj_key, hk, hg, hkp, hd]
  · intro k d hm
    rcases handle_request_v1_events
        { key_fn := some keyF, cache_keep_fn := some keepF, cache_policy_fn := polF }
        additional_params request cache_manager remote now _ hm with
      ⟨kk, h⟩ | ⟨r, c, t, h⟩ | h | ⟨r, h⟩ <;> simp at h
  · intro k hm
    rcases handle_request_v1_events
        { key_fn := some keyF, cache_keep_fn := some keepF, cache_policy_fn := polF }
        additional_params request cache_manager remote now _ hm with
      ⟨kk, h⟩ | ⟨r, c, t, h⟩ | h | ⟨r, h⟩ <;> simp at h

/-- Witness for C10's amended statement with a concrete `Update` hit, a
body-blind constant expiration function, and an infallible store. -/
theorem C10_iterations_agree_on_result_witness :
    (handle_request
        (config_of_v1 (fun _ _ => V1.CacheKey.Key "a")
          (fun _ _ _ _ => V1.CacheKeep.Update)
          (some fun _ _ _ => V1.CacheResponsePolicy.CacheWithoutExpirationDate)
          () (fun _ => 42))
        () sampleRequest (store_of [("a", sampleRecord)])
        (lift_remote sampleRemoteV1)).1 =
      (V1.handle_request_v1
          { key_fn := some fun _ _ => V1.CacheKey.Key "a"
            cache_keep_fn := some fun _ _ _ _ => V1.CacheKeep.Update
            cache_policy_fn :=
              some fun _ _ _ => V1.CacheResponsePolicy.CacheWithoutExpirationDate }
          () sampleRequest (store_of [("a", sampleRecord)]) sampleRemoteV1 7).1 ∧
    (∀ k d, Event.putE k d ∉
      (V1.handle_request_v1
          { key_fn := some fun _ _ => V1.CacheKey.Key "a"
            cache_keep_fn := some fun _ _ _ _ => V1.CacheKeep.Update
            cache_policy_fn :=
              some fun _ _ _ => V1.CacheResponsePolicy.CacheWithoutExpirationDate }
          () sampleRequest (store_of [("a", sampleRecord)]) sampleRemoteV1 7).2) ∧
    (∀ k, Event.deleteE k ∉
      (V1.handle_request_v1
          { key_fn := some fun _ _ => V1.CacheKey.Key "a"
            cache_keep_fn := some fun _ _ _ _ => V1.CacheKeep.Update
            cache_policy_fn :=
              some fun _ _ _ => V1.CacheResponsePolicy.CacheWithoutExpirationDate }
          () sampleRequest (store_of [("a", sampleRecord)]) sampleRemoteV1 7).2) :=
  C10_iterations_agree_on_result () sampleRequest (store_of [("a", sampleRecord)])
    (fun _ _ => V1.CacheKey.Key "a") (fun _ _ _ _ => V1.CacheKeep.Update)
    (some fun _ _ _ => V1.CacheResponsePolicy.CacheWithoutExpirationDate)
    sampleRemoteV1 7 (fun _ => 42)
    (fun _ _ => rfl) (fun k => ⟨_, rfl⟩)
    (fun pf h rq rsp p b2 => by cases h; rfl)

end HttpCaching
